import Mathlib

/-!
Verification of the `fp` device-fingerprinting library.

The Python source is shallowly embedded: every platform lookup the code
performs is a field of an explicit environment record (`Env`, `ClientEnv`),
fallible lookups being `Except`-valued; the functions `machine_id`,
`get_components`, `fingerprint`, `post_fingerprint` are translated from
`src/fp/__init__.py` and `src/fp/client.py`.  `hashlib.sha256(...).hexdigest()`
is modelled by a full SHA-256 implementation over `Nat`.
-/

namespace FP

/-! ## SHA-256 (model of `hashlib.sha256(raw).hexdigest()`) -/

def M32 : Nat := 4294967296

def rotr (n x : Nat) : Nat := ((x >>> n) ||| (x <<< (32 - n))) % M32

def chf (x y z : Nat) : Nat := (x &&& y) ^^^ ((x ^^^ 4294967295) &&& z)

def majf (x y z : Nat) : Nat := (x &&& y) ^^^ (x &&& z) ^^^ (y &&& z)

def bs0 (x : Nat) : Nat := rotr 2 x ^^^ rotr 13 x ^^^ rotr 22 x

def bs1 (x : Nat) : Nat := rotr 6 x ^^^ rotr 11 x ^^^ rotr 25 x

def ss0 (x : Nat) : Nat := rotr 7 x ^^^ rotr 18 x ^^^ (x >>> 3)

def ss1 (x : Nat) : Nat := rotr 17 x ^^^ rotr 19 x ^^^ (x >>> 10)

def shaK : List Nat :=
  [1116352408, 1899447441, 3049323471, 3921009573, 961987163,
   1508970993, 2453635748, 2870763221, 3624381080, 310598401,
   607225278, 1426881987, 1925078388, 2162078206, 2614888103,
   3248222580, 3835390401, 4022224774, 264347078, 604807628,
   770255983, 1249150122, 1555081692, 1996064986, 2554220882,
   2821834349, 2952996808, 3210313671, 3336571891, 3584528711,
   113926993, 338241895, 666307205, 773529912, 1294757372,
   1396182291, 1695183700, 1986661051, 2177026350, 2456956037,
   2730485921, 2820302411, 3259730800, 3345764771, 3516065817,
   3600352804, 4094571909, 275423344, 430227734, 506948616,
   659060556, 883997877, 958139571, 1322822218, 1537002063,
   1747873779, 1955562222, 2024104815, 2227730452, 2361852424,
   2428436474, 2756734187, 3204031479, 3329325298]

structure Hash8 where
  a : Nat
  b : Nat
  c : Nat
  d : Nat
  e : Nat
  f : Nat
  g : Nat
  h : Nat

def initH : Hash8 :=
  ⟨1779033703, 3144134277, 1013904242, 2773480762,
   1359893119, 2600822924, 528734635, 1541459225⟩

/-- Message-schedule extension; `acc` holds the schedule so far, reversed. -/
def schedExt : Nat → List Nat → List Nat
  | 0, acc => acc.reverse
  | n + 1, acc =>
      let w := (ss1 (acc.getD 1 0) + acc.getD 6 0 + ss0 (acc.getD 14 0) + acc.getD 15 0) % M32
      schedExt n (w :: acc)

def roundStep (st : Hash8) (kw : Nat × Nat) : Hash8 :=
  let t1 := (st.h + bs1 st.e + chf st.e st.f st.g + kw.1 + kw.2) % M32
  let t2 := (bs0 st.a + majf st.a st.b st.c) % M32
  ⟨(t1 + t2) % M32, st.a, st.b, st.c, (st.d + t1) % M32, st.e, st.f, st.g⟩

def compress (st : Hash8) (block : List Nat) : Hash8 :=
  let w := schedExt 48 block.reverse
  let f := (List.zip shaK w).foldl roundStep st
  ⟨(st.a + f.a) % M32, (st.b + f.b) % M32, (st.c + f.c) % M32, (st.d + f.d) % M32,
   (st.e + f.e) % M32, (st.f + f.f) % M32, (st.g + f.g) % M32, (st.h + f.h) % M32⟩

def bytesToWords : List Nat → List Nat
  | b0 :: b1 :: b2 :: b3 :: rest =>
      ((b0 <<< 24) ||| (b1 <<< 16) ||| (b2 <<< 8) ||| b3) :: bytesToWords rest
  | _ => []

def processWords (st : Hash8) : List Nat → Hash8
  | w0 :: w1 :: w2 :: w3 :: w4 :: w5 :: w6 :: w7 ::
    w8 :: w9 :: w10 :: w11 :: w12 :: w13 :: w14 :: w15 :: rest =>
      processWords
        (compress st [w0, w1, w2, w3, w4, w5, w6, w7, w8, w9, w10, w11, w12, w13, w14, w15]) rest
  | _ => st

def be64 (n : Nat) : List Nat :=
  [(n >>> 56) % 256, (n >>> 48) % 256, (n >>> 40) % 256, (n >>> 32) % 256,
   (n >>> 24) % 256, (n >>> 16) % 256, (n >>> 8) % 256, n % 256]

def padMessage (msg : List Nat) : List Nat :=
  msg ++ 128 :: (List.replicate ((64 - ((msg.length + 9) % 64)) % 64) 0 ++ be64 (8 * msg.length))

def sha256Words (msg : List Nat) : Hash8 := processWords initH (bytesToWords (padMessage msg))

def be32 (w : Nat) : List Nat := [(w >>> 24) % 256, (w >>> 16) % 256, (w >>> 8) % 256, w % 256]

def digestBytes (st : Hash8) : List Nat :=
  be32 st.a ++ be32 st.b ++ be32 st.c ++ be32 st.d ++ be32 st.e ++ be32 st.f ++ be32 st.g ++ be32 st.h

def hexDigits : List Char := "0123456789abcdef".data

def hexChar (n : Nat) : Char := hexDigits.getD n '0'

def byteHex (b : Nat) : List Char := [hexChar (b / 16), hexChar (b % 16)]

def sha256hex (msg : List Nat) : String := String.mk (((digestBytes (sha256Words msg)).map byteHex).flatten)

/-! ## UTF-8 encoding (model of `str.encode("utf-8")`) -/

def charUtf8 (c : Char) : List Nat :=
  let n := c.toNat
  if n < 128 then [n]
  else if n < 2048 then [192 ||| (n >>> 6), 128 ||| (n &&& 63)]
  else if n < 65536 then
    [224 ||| (n >>> 12), 128 ||| ((n >>> 6) &&& 63), 128 ||| (n &&& 63)]
  else
    [240 ||| (n >>> 18), 128 ||| ((n >>> 12) &&& 63), 128 ||| ((n >>> 6) &&& 63), 128 ||| (n &&& 63)]

def utf8Bytes (s : String) : List Nat := (s.data.map charUtf8).flatten

/-! ## Python string sorting (code-point lexicographic order, for `sorted(components)`) -/

def lexLe : List Char → List Char → Bool
  | [], _ => true
  | _ :: _, [] => false
  | a :: as, b :: bs =>
      if a.toNat < b.toNat then true
      else if b.toNat < a.toNat then false
      else lexLe as bs

def strLeB (s t : String) : Bool := lexLe s.data t.data

def keyLe (s t : String) : Prop := strLeB s t = true

instance : DecidableRel keyLe := fun _ _ => inferInstanceAs (Decidable (_ = true))

/-! ## The canonicalization step of `fingerprint()` (src/fp/__init__.py lines 96-97) -/

def alookup {α : Type} (k : String) : List (String × α) → Option α
  | [] => none
  | kv :: rest => if kv.1 = k then some kv.2 else alookup k rest

def keysOf {α : Type} (m : List (String × α)) : List String := m.map Prod.fst

def joinPipe : List String → String
  | [] => ""
  | [x] => x
  | x :: xs => x ++ "|" ++ joinPipe xs

/-- Serialization: `raw = "|".join(f"{key}:{components[key]}" for key in sorted(components))`. -/
def serialize (m : List (String × String)) : String :=
  joinPipe ((List.insertionSort keyLe (keysOf m)).map (fun k => k ++ ":" ++ (alookup k m).getD ""))

/-- Hashing: `hashlib.sha256(raw.encode("utf-8")).hexdigest()` applied to the serialized map. -/
def canonicalize (m : List (String × String)) : String := sha256hex (utf8Bytes (serialize m))

/-! ## Execution environment

Each platform lookup the source performs is a field; lookups whose Python API can
raise are `Except`-valued (`.error` = the call raised), lookups whose API is
documented never to raise (`platform.system()` and friends return `""` on failure,
`time.tzname` is always a pair of strings, `os.cpu_count()` returns `None` on
failure) are plain values. -/

structure PyErr where
  ty : String
  msg : String
  deriving DecidableEq

structure Env where
  sys_platform : String
  read_etc_machine_id : Except PyErr String
  read_dbus_machine_id : Except PyErr String
  ioreg_output : Except PyErr String
  registry_machine_guid : Except PyErr String
  system : String
  release : String
  version : String
  machine : String
  processor : String
  architecture0 : String
  cpu_count : Option Nat
  python_version : String
  python_compiler : String
  node : String
  fqdn : String
  tzname0 : String
  locale0 : Except PyErr (Option String)
  getnode : Except PyErr Nat
  gethostbyname : Except PyErr String

/-! ## `machine_id()` (src/fp/__init__.py lines 24-53) -/

/-- The literal the regex `rb'"IOPlatformUUID" = "([^"]+)"'` must match before the group. -/
def uuidNeedle : List Char := "\"IOPlatformUUID\" = \"".data

/-- Python `s.startswith(pre)`: code-point prefix test. -/
def pyStartsWith (s pre : String) : Bool := pre.data.isPrefixOf s.data

/-- Does the regex match starting at this position?  The group `[^"]+` is a nonempty
run of non-quote characters that must be followed by a closing quote. -/
def matchAt (l : List Char) : Option String :=
  if uuidNeedle.isPrefixOf l then
    let rest := l.drop uuidNeedle.length
    let grp := rest.takeWhile (fun c => c ≠ '"')
    if grp.isEmpty then none
    else if (rest.drop grp.length).isEmpty then none
    else some (String.mk grp)
  else none

/-- Model of `re.search`: first position (left to right) where the pattern matches. -/
def reSearch : List Char → Option String
  | [] => none
  | c :: t =>
      match matchAt (c :: t) with
      | some g => some g
      | none => reSearch t

def scanUUID (out : String) : Option String := reSearch out.data

/-- Function `machine_id()`: value returned (the function catches every exception internally). -/
def machine_id (env : Env) : String :=
  if pyStartsWith env.sys_platform "linux" then
    match env.read_etc_machine_id with
    | .ok s => s.trim
    | .error _ =>
      match env.read_dbus_machine_id with
      | .ok s => s.trim
      | .error _ => "unknown"
  else if env.sys_platform = "darwin" then
    match env.ioreg_output with
    | .ok out =>
      match scanUUID out with
      | some g => g
      | none => "unknown"
    | .error _ => "unknown"
  else if env.sys_platform = "win32" then
    match env.registry_machine_guid with
    | .ok g => g
    | .error _ => "unknown"
  else "unknown"

/-- Exception-level embedding of `machine_id()`: the result is `.error` exactly when
an uncaught Python exception would propagate out of the function; each `try` body is
the `Except` value being matched, each `except Exception` the `.error` arm. -/
def machineIdE (env : Env) : Except PyErr String :=
  if pyStartsWith env.sys_platform "linux" then
    match env.read_etc_machine_id.map String.trim with
    | .ok r => .ok r
    | .error _ =>
      match env.read_dbus_machine_id.map String.trim with
      | .ok r => .ok r
      | .error _ => .ok "unknown"
  else if env.sys_platform = "darwin" then
    match (env.ioreg_output.map scanUUID) with
    | .ok (some g) => .ok g
    | .ok none => .ok "unknown"
    | .error _ => .ok "unknown"
  else if env.sys_platform = "win32" then
    match env.registry_machine_guid with
    | .ok g => .ok g
    | .error _ => .ok "unknown"
  else .ok "unknown"

/-! ## `get_components()` (src/fp/__init__.py lines 56-90) -/

/-- Model of `format(uuid.getnode(), "012x")`: lowercase hex, zero-padded to width 12. -/
def hex012 (n : Nat) : String :=
  let ds := Nat.toDigits 16 n
  String.mk (List.replicate (12 - ds.length) '0' ++ ds)

/-- The dict literal plus the three guarded assignments, given the value the
`machine_id()` call returned. -/
def componentsWith (env : Env) (mid : String) : List (String × String) :=
  [("system", env.system),
   ("release", env.release),
   ("version", env.version),
   ("machine", env.machine),
   ("processor", env.processor),
   ("architecture", env.architecture0),
   ("cpu_count",
     match env.cpu_count with
     | some n => if n = 0 then "unknown" else toString n
     | none => "unknown"),
   ("python_version", env.python_version),
   ("python_compiler", env.python_compiler),
   ("node", env.node),
   ("fqdn", env.fqdn),
   ("timezone", env.tzname0),
   ("machine_id", mid),
   ("locale",
     match env.locale0 with
     | .ok (some l) => if l = "" then "unknown" else l
     | .ok none => "unknown"
     | .error _ => "unknown"),
   ("mac",
     match env.getnode with
     | .ok n => hex012 n
     | .error _ => "unknown"),
   ("ip",
     match env.gethostbyname with
     | .ok ip => ip
     | .error _ => "unknown")]

/-- Function `get_components()`: the returned dict, as an association list in insertion order. -/
def get_components (env : Env) : List (String × String) :=
  componentsWith env (machine_id env)

/-- Exception-level embedding of `get_components()`: the only call inside the dict
literal that is both fallible and unguarded is `machine_id()`; every other fallible
lookup is wrapped in try/except by the source. -/
def get_componentsE (env : Env) : Except PyErr (List (String × String)) :=
  (machineIdE env).map (fun mid => componentsWith env mid)

/-- Function `fingerprint()` (src/fp/__init__.py lines 93-97). -/
def fingerprint (env : Env) : String := canonicalize (get_components env)

/-- The key list of the dict `get_components()` builds, in insertion order. -/
def codeSchema : List String :=
  ["system", "release", "version", "machine", "processor", "architecture", "cpu_count",
   "python_version", "python_compiler", "node", "fqdn", "timezone", "machine_id",
   "locale", "mac", "ip"]

/-- The fixed attribute schema as the spec (and the claims) list it. -/
def specSchema : List String :=
  ["system", "release", "version", "machine", "processor", "architecture", "cpu_count",
   "runtime_version", "runtime_compiler", "node", "fqdn", "timezone", "machine_id",
   "locale", "mac", "ip"]

/-! ## Client (src/fp/client.py) -/

inductive TransportErr where
  | urlError (msg : String)
  | timeoutError (msg : String)
  deriving DecidableEq

/-- Value of `exc.__class__.__name__` for the two exception classes the source catches. -/
def TransportErr.className : TransportErr → String
  | .urlError _ => "URLError"
  | .timeoutError _ => "TimeoutError"

/-- Value of `str(exc)`. -/
def TransportErr.message : TransportErr → String
  | .urlError m => m
  | .timeoutError m => m

inductive JVal where
  | str (s : String)
  | num (n : Int)
  | bool (b : Bool)
  | null
  | arr (xs : List JVal)
  | obj (fields : List (String × JVal))

structure ClientEnv where
  sys : Env
  http : Except TransportErr String
  parsed : Except PyErr JVal

/-- Function `get_fingerprint()` (client.py lines 18-20). -/
def get_fingerprint (cenv : ClientEnv) : String := fingerprint cenv.sys

/-- Python `d[k] = v`: overwrite in place if the key exists, else append. -/
def dictSet {α : Type} (m : List (String × α)) (k : String) (v : α) : List (String × α) :=
  if (keysOf m).contains k then m.map (fun kv => if kv.1 = k then (k, v) else kv)
  else m ++ [(k, v)]

/-- Python `d.update(ds)`. -/
def dictUpdate {α : Type} (m : List (String × α)) (ds : List (String × α)) :
    List (String × α) :=
  ds.foldl (fun acc kv => dictSet acc kv.1 kv.2) m

/-- The request body `payload` built by `post_fingerprint` (client.py lines 43-45):
`payload = {"fingerprint": get_fingerprint()}; if data: payload.update(data)`.
A `None` caller argument and an empty dict are both the empty list (both falsy). -/
def payload (cenv : ClientEnv) (data : List (String × JVal)) : List (String × JVal) :=
  let base := [("fingerprint", JVal.str (get_fingerprint cenv))]
  if data.isEmpty then base else dictUpdate base data

/-- Function `post_fingerprint` (client.py lines 51-70) at the exception level: `.error` exactly
when an uncaught exception propagates to the caller (only the re-raised `ValueError`
for an invalid JSON response body can). -/
def post_fingerprintE (cenv : ClientEnv) (data : List (String × JVal)) : Except PyErr JVal :=
  let _body := payload cenv data
  match cenv.http with
  | .ok _resp =>
      match cenv.parsed with
      | .ok j => .ok j
      | .error _ => .error ⟨"ValueError", "Response returned invalid JSON"⟩
  | .error e =>
      .ok (JVal.obj
        [("error", JVal.obj
          [("type", JVal.str e.className), ("message", JVal.str e.message)])])

/-- Modelled from the spec: return the first successfully-readable of the identifier
files, in priority order. -/
def firstReadable : List (Except PyErr String) → Option String
  | [] => none
  | .ok s :: _ => some s
  | .error _ :: rest => firstReadable rest

/-- The machine-identifier priority chain as the spec's section 4.2 describes it,
amended with the Apple-family branch the claim omitted. -/
def machine_id_spec (env : Env) : String :=
  if pyStartsWith env.sys_platform "linux" then
    match firstReadable [env.read_etc_machine_id, env.read_dbus_machine_id] with
    | some s => s.trim
    | none => "unknown"
  else if env.sys_platform = "darwin" then
    match env.ioreg_output with
    | .ok out => (scanUUID out).getD "unknown"
    | .error _ => "unknown"
  else if env.sys_platform = "win32" then
    match env.registry_machine_guid with
    | .ok g => g
    | .error _ => "unknown"
  else "unknown"

def optOr {α : Type} : Option α → Option α → Option α
  | some v, _ => some v
  | none, b => b

/-- The all-sentinel attribute map over the claim's fixed schema. -/
def baseMap : List (String × String) := specSchema.map (fun k => (k, "unknown"))

def aStr (n : Nat) : String := String.mk (List.replicate n 'a')

def hexVal (c : Char) : Nat :=
  if 48 ≤ c.toNat ∧ c.toNat < 58 then c.toNat - 48
  else if 97 ≤ c.toNat ∧ c.toNat ≤ 102 then c.toNat - 87
  else 0

/-- Reading the sixteen-valued digit at each of the 64 digest positions. -/
def digestCode (s : String) (i : Fin 64) : Fin 16 :=
  ⟨hexVal (s.data.getD i '0') % 16, by omega⟩

/-- The literal map of the spec's end-to-end example (spec schema, `system`,
`release`, `machine_id` set, every other key the sentinel). -/
def c3Map : List (String × String) :=
  [("system", "Linux"), ("release", "5.0"), ("version", "unknown"), ("machine", "unknown"),
   ("processor", "unknown"), ("architecture", "unknown"), ("cpu_count", "unknown"),
   ("runtime_version", "unknown"), ("runtime_compiler", "unknown"), ("node", "unknown"),
   ("fqdn", "unknown"), ("timezone", "unknown"), ("machine_id", "abc123"),
   ("locale", "unknown"), ("mac", "unknown"), ("ip", "unknown")]

/-- The canonical serialization the spec's end-to-end example prescribes. -/
def c3Str : String :=
  "architecture:unknown|cpu_count:unknown|fqdn:unknown|ip:unknown|locale:unknown|mac:unknown|machine:unknown|machine_id:abc123|node:unknown|processor:unknown|release:5.0|runtime_compiler:unknown|runtime_version:unknown|system:Linux|timezone:unknown|version:unknown"

/-! ## Concrete environments -/

/-- An environment on an unrecognized platform in which every fallible lookup raises. -/
def envAllUnknown : Env where
  sys_platform := "js"
  read_etc_machine_id := .error ⟨"FileNotFoundError", "/etc/machine-id"⟩
  read_dbus_machine_id := .error ⟨"FileNotFoundError", "/var/lib/dbus/machine-id"⟩
  ioreg_output := .error ⟨"FileNotFoundError", "ioreg"⟩
  registry_machine_guid := .error ⟨"OSError", "winreg"⟩
  system := ""
  release := ""
  version := ""
  machine := ""
  processor := ""
  architecture0 := ""
  cpu_count := none
  python_version := "3.11.0"
  python_compiler := "GCC"
  node := ""
  fqdn := ""
  tzname0 := ""
  locale0 := .error ⟨"ValueError", "unknown locale"⟩
  getnode := .error ⟨"OSError", "getnode"⟩
  gethostbyname := .error ⟨"OSError", "gaierror"⟩

/-- A macOS environment whose `ioreg` query succeeds and contains a platform UUID. -/
def envDarwin : Env :=
  { envAllUnknown with
    sys_platform := "darwin"
    ioreg_output := .ok "  \"IOPlatformUUID\" = \"1234-ABCD-5678\"\n" }

/-! ## Helper lemmas -/

theorem machineIdE_ok (env : Env) : machineIdE env = Except.ok (machine_id env) := by
  unfold machineIdE machine_id
  by_cases h1 : pyStartsWith env.sys_platform "linux"
  · rw [if_pos h1, if_pos h1]
    cases env.read_etc_machine_id with
    | ok s => rfl
    | error e =>
        cases env.read_dbus_machine_id with
        | ok s => rfl
        | error e2 => rfl
  · rw [if_neg h1, if_neg h1]
    by_cases h2 : env.sys_platform = "darwin"
    · rw [if_pos h2, if_pos h2]
      cases env.ioreg_output with
      | ok out =>
          cases h : scanUUID out with
          | some g => simp [Except.map, h]
          | none => simp [Except.map, h]
      | error e => rfl
    · rw [if_neg h2, if_neg h2]
      by_cases h3 : env.sys_platform = "win32"
      · rw [if_pos h3, if_pos h3]
        cases env.registry_machine_guid with
        | ok g => rfl
        | error e => rfl
      · rw [if_neg h3, if_neg h3]

theorem charToNat_inj {a b : Char} (h : a.toNat = b.toNat) : a = b := by
  rw [← Char.ofNat_toNat a, h, Char.ofNat_toNat]

theorem lexLe_total : ∀ a b : List Char, lexLe a b = true ∨ lexLe b a = true
  | [], _ => Or.inl rfl
  | _ :: _, [] => Or.inr rfl
  | a :: as, b :: bs => by
      rcases Nat.lt_trichotomy a.toNat b.toNat with h | h | h
      · exact Or.inl (by simp [lexLe, h])
      · have hab : a = b := charToNat_inj h
        subst hab
        rcases lexLe_total as bs with ih | ih
        · exact Or.inl (by simp [lexLe, ih])
        · exact Or.inr (by simp [lexLe, ih])
      · exact Or.inr (by simp [lexLe, h])

theorem lexLe_antisymm : ∀ {a b : List Char},
    lexLe a b = true → lexLe b a = true → a = b
  | [], [], _, _ => rfl
  | [], _ :: _, _, h2 => by simp [lexLe] at h2
  | _ :: _, [], h1, _ => by simp [lexLe] at h1
  | a :: as, b :: bs, h1, h2 => by
      rcases Nat.lt_trichotomy a.toNat b.toNat with h | h | h
      · simp [lexLe, h, Nat.lt_asymm h] at h2
      · have hab : a = b := charToNat_inj h
        subst hab
        simp only [lexLe, Nat.lt_irrefl, if_false] at h1 h2
        exact congrArg (a :: ·) (lexLe_antisymm h1 h2)
      · simp [lexLe, h, Nat.lt_asymm h] at h1

theorem lexLe_trans : ∀ {a b c : List Char},
    lexLe a b = true → lexLe b c = true → lexLe a c = true
  | [], _, _, _, _ => rfl
  | _ :: _, [], _, h1, _ => by simp [lexLe] at h1
  | _ :: _, _ :: _, [], _, h2 => by simp [lexLe] at h2
  | a :: as, b :: bs, c :: cs, h1, h2 => by
      rcases Nat.lt_trichotomy a.toNat b.toNat with hab | hab | hab
      · rcases Nat.lt_trichotomy b.toNat c.toNat with hbc | hbc | hbc
        · simp [lexLe, Nat.lt_trans hab hbc]
        · have hb : b = c := charToNat_inj hbc
          subst hb
          simp [lexLe, hab]
        · simp [lexLe, hbc, Nat.lt_asymm hbc] at h2
      · have hb : a = b := charToNat_inj hab
        subst hb
        simp only [lexLe, Nat.lt_irrefl, if_false] at h1
        rcases Nat.lt_trichotomy a.toNat c.toNat with hac | hac | hac
        · simp [lexLe, hac]
        · have hc : a = c := charToNat_inj hac
          subst hc
          simp only [lexLe, Nat.lt_irrefl, if_false] at h2 ⊢
          exact lexLe_trans h1 h2
        · simp [lexLe, hac, Nat.lt_asymm hac] at h2
      · simp [lexLe, hab, Nat.lt_asymm hab] at h1

theorem alookup_eq_none {α : Type} (k : String) :
    ∀ m : List (String × α), alookup k m = none ↔ k ∉ keysOf m
  | [] => by simp [alookup, keysOf]
  | kv :: rest => by
      by_cases h : kv.1 = k
      · simp [alookup, h, keysOf]
      · have hne : k ≠ kv.1 := fun hk => h hk.symm
        simp [alookup, h, keysOf, hne, alookup_eq_none k rest]

theorem mem_keys_iff {α : Type} (k : String) (m : List (String × α)) :
    k ∈ keysOf m ↔ alookup k m ≠ none := by
  rw [Ne, alookup_eq_none]
  exact not_not.symm

theorem keys_perm {α : Type} {m₁ m₂ : List (String × α)}
    (h₁ : (keysOf m₁).Nodup) (h₂ : (keysOf m₂).Nodup)
    (h : ∀ k, alookup k m₁ = alookup k m₂) : (keysOf m₁).Perm (keysOf m₂) := by
  rw [List.perm_iff_count]
  intro k
  have hmem : k ∈ keysOf m₁ ↔ k ∈ keysOf m₂ := by
    rw [mem_keys_iff, mem_keys_iff, h k]
  by_cases hk : k ∈ keysOf m₁
  · rw [List.count_eq_one_of_mem h₁ hk, List.count_eq_one_of_mem h₂ (hmem.mp hk)]
  · rw [List.count_eq_zero.mpr hk, List.count_eq_zero.mpr (fun hm => hk (hmem.mpr hm))]

theorem serialize_congr {m₁ m₂ : List (String × String)}
    (h₁ : (keysOf m₁).Nodup) (h₂ : (keysOf m₂).Nodup)
    (h : ∀ k, alookup k m₁ = alookup k m₂) : serialize m₁ = serialize m₂ := by
  haveI : IsTotal String keyLe := ⟨fun s t => lexLe_total s.data t.data⟩
  haveI : IsTrans String keyLe := ⟨fun _ _ _ h1 h2 => lexLe_trans h1 h2⟩
  haveI : IsAntisymm String keyLe :=
    ⟨fun a b h1 h2 => by
      cases a with
      | mk d1 =>
          cases b with
          | mk d2 => exact congrArg String.mk (lexLe_antisymm h1 h2)⟩
  unfold serialize
  have hperm : (List.insertionSort keyLe (keysOf m₁)).Perm
      (List.insertionSort keyLe (keysOf m₂)) :=
    ((List.perm_insertionSort keyLe (keysOf m₁)).trans (keys_perm h₁ h₂ h)).trans
      (List.perm_insertionSort keyLe (keysOf m₂)).symm
  have hsorted : List.insertionSort keyLe (keysOf m₁) = List.insertionSort keyLe (keysOf m₂) :=
    List.eq_of_perm_of_sorted hperm
      (List.sorted_insertionSort keyLe (keysOf m₁)) (List.sorted_insertionSort keyLe (keysOf m₂))
  have hfun : (fun k => k ++ ":" ++ (alookup k m₁).getD "") =
      (fun k => k ++ ":" ++ (alookup k m₂).getD "") := by
    funext k
    rw [h k]
  rw [hsorted, hfun]

/-! ## Digest format lemmas -/

theorem hexChar_mem (n : Nat) : hexChar n ∈ hexDigits := by
  unfold hexChar
  rcases Nat.lt_or_ge n 16 with h | h
  · interval_cases n <;> decide
  · rw [List.getD_eq_getElem?_getD, List.getElem?_eq_none (by simpa [hexDigits] using h)]
    decide

theorem byteHex_mem {c : Char} {b : Nat} (h : c ∈ byteHex b) : c ∈ hexDigits := by
  simp only [byteHex, List.mem_cons, List.not_mem_nil, or_false] at h
  rcases h with h | h <;> (subst h; exact hexChar_mem _)

theorem flatten_byteHex_length :
    ∀ l : List Nat, ((l.map byteHex).flatten).length = 2 * l.length
  | [] => rfl
  | b :: rest => by
      simp only [List.map_cons, List.flatten_cons, List.length_append, List.length_cons,
        flatten_byteHex_length rest, byteHex, List.length_nil]
      omega

theorem sha256hex_format (msg : List Nat) :
    (sha256hex msg).length = 64 ∧ ∀ c ∈ (sha256hex msg).data, c ∈ hexDigits := by
  constructor
  · have h : (sha256hex msg).length =
        (((digestBytes (sha256Words msg)).map byteHex).flatten).length := rfl
    rw [h, flatten_byteHex_length]
    rfl
  · intro c hc
    have hc' : c ∈ ((digestBytes (sha256Words msg)).map byteHex).flatten := hc
    rw [List.mem_flatten] at hc'
    rcases hc' with ⟨L, hL, hcL⟩
    rw [List.mem_map] at hL
    rcases hL with ⟨b, _, rfl⟩
    exact byteHex_mem hcL

/-! ## Claim C1 -/

/-- C1 counterexample: on a concrete environment, the key set `get_components()`
returns is not the schema the claim lists, because the code names the runtime
fields `python_version` and `python_compiler`, not `runtime_version` and
`runtime_compiler`. -/
theorem C1_counterexample : keysOf (get_components envAllUnknown) ≠ specSchema := by
  decide

/-- C1 (amended): for every execution environment, the map returned by
`get_components()` has exactly the fixed key list `system, release, version,
machine, processor, architecture, cpu_count, python_version, python_compiler,
node, fqdn, timezone, machine_id, locale, mac, ip` (in insertion order; in
particular its key set is exactly that schema), and every value is a string
(the map has type `List (String × String)`). -/
theorem C1_schema (env : Env) : keysOf (get_components env) = codeSchema := rfl

/-! ## Claim C2 -/

/-- C2: no error from any attribute retrieval propagates out of `get_components()`
(the exception-level embedding always returns `ok`), the returned map always has the
complete fixed key list, and each guarded lookup degrades to the sentinel
`"unknown"` for its key only when it raises: `locale`, `mac`, `ip`, and
`machine_id` (when every platform identifier source raises). -/
theorem C2_fault_containment (env : Env) :
    get_componentsE env = Except.ok (get_components env) ∧
    keysOf (get_components env) = codeSchema ∧
    (∀ e, env.locale0 = Except.error e →
      alookup "locale" (get_components env) = some "unknown") ∧
    (∀ e, env.getnode = Except.error e →
      alookup "mac" (get_components env) = some "unknown") ∧
    (∀ e, env.gethostbyname = Except.error e →
      alookup "ip" (get_components env) = some "unknown") ∧
    (∀ e1 e2 e3 e4, env.read_etc_machine_id = Except.error e1 →
      env.read_dbus_machine_id = Except.error e2 →
      env.ioreg_output = Except.error e3 →
      env.registry_machine_guid = Except.error e4 →
      alookup "machine_id" (get_components env) = some "unknown") := by
  refine ⟨?_, rfl, ?_, ?_, ?_, ?_⟩
  · rw [get_componentsE, machineIdE_ok env]
    rfl
  · intro e he
    simp [get_components, componentsWith, alookup, he]
  · intro e he
    simp [get_components, componentsWith, alookup, he]
  · intro e he
    simp [get_components, componentsWith, alookup, he]
  · intro e1 e2 e3 e4 h1 h2 h3 h4
    have hmid : machine_id env = "unknown" := by
      unfold machine_id
      split_ifs <;> simp [h1, h2, h3, h4]
    simp [get_components, componentsWith, alookup, hmid]

/-- C2 witness at a concrete environment in which every guarded lookup raises. -/
theorem C2_fault_containment_witness :
    get_componentsE envAllUnknown = Except.ok (get_components envAllUnknown) ∧
    alookup "locale" (get_components envAllUnknown) = some "unknown" ∧
    alookup "mac" (get_components envAllUnknown) = some "unknown" ∧
    alookup "ip" (get_components envAllUnknown) = some "unknown" ∧
    alookup "machine_id" (get_components envAllUnknown) = some "unknown" :=
  ⟨(C2_fault_containment envAllUnknown).1,
   (C2_fault_containment envAllUnknown).2.2.1 ⟨"ValueError", "unknown locale"⟩ rfl,
   (C2_fault_containment envAllUnknown).2.2.2.1 ⟨"OSError", "getnode"⟩ rfl,
   (C2_fault_containment envAllUnknown).2.2.2.2.1 ⟨"OSError", "gaierror"⟩ rfl,
   (C2_fault_containment envAllUnknown).2.2.2.2.2 ⟨"FileNotFoundError", "/etc/machine-id"⟩
     ⟨"FileNotFoundError", "/var/lib/dbus/machine-id"⟩ ⟨"FileNotFoundError", "ioreg"⟩
     ⟨"OSError", "winreg"⟩ rfl rfl rfl rfl⟩

/-! ## Claim C3 -/

set_option maxRecDepth 400000 in
/-- C3: canonicalizing the literal example map yields exactly the SHA-256 hex digest
of the prescribed sorted key:value string. -/
theorem C3_end_to_end : canonicalize c3Map = sha256hex (utf8Bytes c3Str) := by
  have h : serialize c3Map = c3Str := by decide
  unfold canonicalize
  rw [h]

/-! ## Claim C5 -/

/-- C5 counterexample: on a concrete macOS environment (neither Linux-family nor
Windows-family) whose hardware-registry query succeeds, `machine_id()` returns the
captured platform UUID, not the sentinel `"unknown"` the claim requires for
platforms other than the two families it lists. -/
theorem C5_counterexample :
    (¬ pyStartsWith envDarwin.sys_platform "linux" = true) ∧
    envDarwin.sys_platform ≠ "win32" ∧
    machine_id envDarwin = "1234-ABCD-5678" ∧
    machine_id envDarwin ≠ "unknown" := by
  decide

/-- C5 (amended): `machine_id()` resolves by the spec's full priority chain,
including the Apple-family branch: Linux-family reads the first
successfully-readable of the two identifier files (trimmed), macOS scans the
hardware-registry tool output for the quoted platform UUID, Windows-family returns
the registry `MachineGuid` verbatim, and any other platform or any failing
platform-specific path yields the sentinel `"unknown"`. -/
theorem C5_machine_id_chain (env : Env) : machine_id env = machine_id_spec env := by
  unfold machine_id machine_id_spec
  by_cases h1 : pyStartsWith env.sys_platform "linux"
  · rw [if_pos h1, if_pos h1]
    cases env.read_etc_machine_id <;> cases env.read_dbus_machine_id <;> rfl
  · rw [if_neg h1, if_neg h1]
    by_cases h2 : env.sys_platform = "darwin"
    · rw [if_pos h2, if_pos h2]
      cases env.ioreg_output with
      | ok out => cases h : scanUUID out <;> simp [h]
      | error e => rfl
    · rw [if_neg h2, if_neg h2]

/-! ## Claim C6 -/

/-- C6: for every attribute map, the digest produced by the canonicalization step of
`fingerprint()` is a string of exactly 64 characters, each one of the sixteen
lowercase hexadecimal digits. -/
theorem C6_digest_format (m : List (String × String)) :
    (canonicalize m).length = 64 ∧
    ((canonicalize m).data.all (fun c => decide (c ∈ hexDigits))) = true := by
  obtain ⟨hlen, hmem⟩ := sha256hex_format (utf8Bytes (serialize m))
  exact ⟨hlen, List.all_eq_true.mpr (fun c hc => decide_eq_true (hmem c hc))⟩

/-! ## Claim C4 -/

/-- C4: two attribute maps that are equal as mappings (same keys, same values —
hence whatever order their entries were inserted or are iterated in) canonicalize
to identical digests. -/
theorem C4_order_independence {m₁ m₂ : List (String × String)}
    (h₁ : (keysOf m₁).Nodup) (h₂ : (keysOf m₂).Nodup)
    (h : ∀ k, alookup k m₁ = alookup k m₂) : canonicalize m₁ = canonicalize m₂ :=
  congrArg (fun s => sha256hex (utf8Bytes s)) (serialize_congr h₁ h₂ h)

/-- C4 witness: two insertion orders of the same two-entry map canonicalize alike. -/
theorem C4_order_independence_witness :
    canonicalize [("a", "1"), ("b", "2")] = canonicalize [("b", "2"), ("a", "1")] := by
  apply C4_order_independence (by decide) (by decide)
  intro k
  by_cases ha : ("a" : String) = k
  · simp [alookup, ha.symm, ← ha]
  · by_cases hb : ("b" : String) = k
    · simp [alookup, ← hb, ha]
    · simp [alookup, ha, hb]

/-! ## Dict-update lemmas (Python `d[k] = v` / `d.update(...)` semantics) -/

theorem alookup_mapReplace_ne {α : Type} (k' k : String) (v : α) (hk : k' ≠ k) :
    ∀ m : List (String × α),
      alookup k (m.map (fun kv => if kv.1 = k' then (k', v) else kv)) = alookup k m
  | [] => rfl
  | kv :: rest => by
      by_cases h : kv.1 = k'
      · simp [alookup, h, hk, alookup_mapReplace_ne k' k v hk rest]
      · simp only [List.map_cons, if_neg h, alookup, alookup_mapReplace_ne k' k v hk rest]

theorem alookup_mapReplace_eq {α : Type} (k : String) (v : α) :
    ∀ m : List (String × α), k ∈ keysOf m →
      alookup k (m.map (fun kv => if kv.1 = k then (k, v) else kv)) = some v
  | [], hmem => absurd hmem (by simp [keysOf])
  | kv :: rest, hmem => by
      by_cases h : kv.1 = k
      · simp [alookup, h]
      · have hmem' : k ∈ keysOf rest := by
          have : k ≠ kv.1 := fun he => h he.symm
          simpa [keysOf, this] using hmem
        simp [alookup, h, alookup_mapReplace_eq k v rest hmem']

theorem alookup_append_single {α : Type} (k' k : String) (v : α) :
    ∀ m : List (String × α), k' ∉ keysOf m →
      alookup k (m ++ [(k', v)]) = if k' = k then some v else alookup k m
  | [], _ => rfl
  | kv :: rest, hmem => by
      have h1 : kv.1 ≠ k' := by
        intro he
        exact hmem (by simp [keysOf, he])
      have hmem' : k' ∉ keysOf rest := fun hr => hmem (List.mem_cons_of_mem kv.1 hr)
      by_cases h : kv.1 = k
      · have hk : k' ≠ k := fun he => h1 (h.trans he.symm)
        simp [alookup, h, hk]
      · rw [List.cons_append]
        simp only [alookup, if_neg h]
        exact alookup_append_single k' k v rest hmem'

theorem alookup_dictSet {α : Type} (m : List (String × α)) (k' k : String) (v : α) :
    alookup k (dictSet m k' v) = if k' = k then some v else alookup k m := by
  unfold dictSet
  by_cases hc : k' ∈ keysOf m
  · rw [if_pos (by simpa using List.elem_iff.mpr hc)]
    by_cases hk : k' = k
    · subst hk
      rw [if_pos rfl]
      exact alookup_mapReplace_eq k' v m hc
    · rw [if_neg hk]
      exact alookup_mapReplace_ne k' k v hk m
  · rw [if_neg (by simpa using fun he => hc (List.elem_iff.mp he))]
    exact alookup_append_single k' k v m hc

theorem alookup_dictUpdate {α : Type} :
    ∀ ds : List (String × α), (keysOf ds).Nodup →
      ∀ (m : List (String × α)) (k : String),
        alookup k (dictUpdate m ds) = optOr (alookup k ds) (alookup k m)
  | [], _, m, k => rfl
  | (k₀, v₀) :: rest, hnd, m, k => by
      have hk₀ : k₀ ∉ keysOf rest := (List.nodup_cons.mp hnd).1
      have hnd' : (keysOf rest).Nodup := (List.nodup_cons.mp hnd).2
      have step : dictUpdate m ((k₀, v₀) :: rest) = dictUpdate (dictSet m k₀ v₀) rest := rfl
      rw [step, alookup_dictUpdate rest hnd' (dictSet m k₀ v₀) k, alookup_dictSet]
      by_cases h : k₀ = k
      · subst h
        have hr : alookup k₀ rest = none := (alookup_eq_none k₀ rest).mpr hk₀
        simp [alookup, optOr, hr]
      · have hl : alookup k ((k₀, v₀) :: rest) = alookup k rest := by
          simp [alookup, h]
        rw [hl]
        cases alookup k rest <;> simp [optOr, h]

/-! ## Claim C9 -/

theorem alookup_payload_base (cenv : ClientEnv) (k : String) :
    alookup k [("fingerprint", JVal.str (get_fingerprint cenv))] =
      (if k = "fingerprint" then some (JVal.str (get_fingerprint cenv)) else none) := by
  by_cases hk : k = "fingerprint"
  · subst hk
    simp [alookup]
  · simp [alookup, hk, if_neg (Ne.symm hk)]

/-- C9: the request body `post_fingerprint` submits is the mapping
`fingerprint ↦ digest` merged with the caller-supplied pairs, the caller value
winning on any key collision (including the key `fingerprint` itself): looking up
any key in the body yields the caller's value if the caller supplied that key, the
digest if the key is `fingerprint` and the caller did not supply it, and nothing
otherwise. -/
theorem C9_request_body (cenv : ClientEnv) (data : List (String × JVal))
    (hnd : (keysOf data).Nodup) (k : String) :
    alookup k (payload cenv data) =
      optOr (alookup k data)
        (if k = "fingerprint" then some (JVal.str (get_fingerprint cenv)) else none) := by
  by_cases hd : data.isEmpty
  · have hnil : data = [] := List.isEmpty_iff.mp hd
    subst hnil
    exact alookup_payload_base cenv k
  · have h1 : payload cenv data =
        dictUpdate [("fingerprint", JVal.str (get_fingerprint cenv))] data := by
      simp [payload, hd]
    rw [h1, alookup_dictUpdate data hnd _ k, alookup_payload_base]

/-- C9 witness: with a caller-supplied override of `fingerprint` and one extra key,
the body carries the caller's values, the override winning. -/
theorem C9_request_body_witness :
    alookup "fingerprint"
      (payload ⟨envAllUnknown, Except.error (TransportErr.urlError "refused"),
        Except.error ⟨"JSONDecodeError", "no body"⟩⟩
        [("fingerprint", JVal.str "override"), ("extra", JVal.num 7)]) =
      some (JVal.str "override") :=
  C9_request_body
    ⟨envAllUnknown, Except.error (TransportErr.urlError "refused"),
      Except.error ⟨"JSONDecodeError", "no body"⟩⟩
    [("fingerprint", JVal.str "override"), ("extra", JVal.num 7)]
    (by decide) "fingerprint"

/-! ## Claim C8 -/

/-- C8: whenever the underlying HTTP request fails at the transport layer (the
exceptions `urllib` raises for connection refused, DNS failure, timeout), the
function does not raise: it returns a structured error result carrying the
exception class name (always non-empty) and its message, instead of propagating
the transport exception. -/
theorem C8_transport_error (cenv : ClientEnv) (data : List (String × JVal))
    (e : TransportErr) (h : cenv.http = Except.error e) :
    post_fingerprintE cenv data =
      Except.ok (JVal.obj
        [("error", JVal.obj
          [("type", JVal.str e.className), ("message", JVal.str e.message)])]) ∧
    e.className ≠ "" := by
  constructor
  · simp [post_fingerprintE, h]
  · cases e <;> simp [TransportErr.className]

/-- C8 witness: a concrete refused connection yields the structured error dict. -/
theorem C8_transport_error_witness :
    post_fingerprintE
      ⟨envAllUnknown, Except.error (TransportErr.urlError "connection refused"),
        Except.error ⟨"JSONDecodeError", "no body"⟩⟩ [] =
      Except.ok (JVal.obj
        [("error", JVal.obj
          [("type", JVal.str "URLError"), ("message", JVal.str "connection refused")])]) ∧
    ("URLError" : String) ≠ "" :=
  C8_transport_error
    ⟨envAllUnknown, Except.error (TransportErr.urlError "connection refused"),
      Except.error ⟨"JSONDecodeError", "no body"⟩⟩ []
    (TransportErr.urlError "connection refused") rfl

/-! ## Claim C7 -/

theorem hexVal_lt (c : Char) : hexVal c < 16 := by
  unfold hexVal
  split_ifs with h1 h2 <;> omega

theorem hexVal_inj {a b : Char} (ha : a ∈ hexDigits) (hb : b ∈ hexDigits)
    (h : hexVal a = hexVal b) : a = b := by
  fin_cases ha <;> fin_cases hb <;> revert h <;> decide

theorem digestCode_inj {s t : String}
    (hs1 : s.length = 64) (hs2 : ∀ c ∈ s.data, c ∈ hexDigits)
    (ht1 : t.length = 64) (ht2 : ∀ c ∈ t.data, c ∈ hexDigits)
    (h : digestCode s = digestCode t) : s = t := by
  have hsl : s.data.length = 64 := hs1
  have htl : t.data.length = 64 := ht1
  have hdata : s.data = t.data := by
    apply List.ext_getElem (hsl.trans htl.symm)
    intro i hi1 hi2
    have hi : i < 64 := by omega
    have hcode := congrFun h ⟨i, hi⟩
    have hv0 : hexVal (s.data.getD i '0') % 16 = hexVal (t.data.getD i '0') % 16 :=
      congrArg Fin.val hcode
    have hv : hexVal (s.data.getD i '0') = hexVal (t.data.getD i '0') := by
      rw [Nat.mod_eq_of_lt (hexVal_lt _), Nat.mod_eq_of_lt (hexVal_lt _)] at hv0
      exact hv0
    rw [List.getD_eq_getElem?_getD, List.getD_eq_getElem?_getD,
      List.getElem?_eq_getElem hi1, List.getElem?_eq_getElem hi2] at hv
    simp only [Option.getD_some] at hv
    exact hexVal_inj (hs2 _ (List.getElem_mem hi1)) (ht2 _ (List.getElem_mem hi2)) hv
  cases s
  cases t
  exact congrArg String.mk hdata

theorem keysOf_mapReplace {α : Type} (k : String) (v : α) :
    ∀ m : List (String × α),
      keysOf (m.map (fun kv => if kv.1 = k then (k, v) else kv)) = keysOf m
  | [] => rfl
  | kv :: rest => by
      have ih := keysOf_mapReplace k v rest
      show (if kv.1 = k then (k, v) else kv).1 ::
          keysOf (rest.map (fun kv => if kv.1 = k then (k, v) else kv)) =
          kv.1 :: keysOf rest
      rw [ih]
      by_cases h : kv.1 = k
      · rw [if_pos h, h]
      · rw [if_neg h]

theorem keysOf_dictSet {α : Type} {m : List (String × α)} {k : String}
    (hmem : k ∈ keysOf m) (v : α) : keysOf (dictSet m k v) = keysOf m := by
  unfold dictSet
  rw [if_pos (by simpa using List.elem_iff.mpr hmem)]
  exact keysOf_mapReplace k v m

theorem dictSet_overwrite {m : List (String × String)} {k : String}
    (hmem : k ∈ keysOf m) (v₁ v₂ : String) :
    dictSet (dictSet m k v₁) k v₂ = dictSet m k v₂ := by
  have h1 : dictSet m k v₁ = m.map (fun kv => if kv.1 = k then (k, v₁) else kv) := by
    unfold dictSet
    rw [if_pos (by simpa using List.elem_iff.mpr hmem)]
  have h2 : dictSet m k v₂ = m.map (fun kv => if kv.1 = k then (k, v₂) else kv) := by
    unfold dictSet
    rw [if_pos (by simpa using List.elem_iff.mpr hmem)]
  have hmem1 : k ∈ keysOf (m.map (fun kv => if kv.1 = k then (k, v₁) else kv)) := by
    rw [keysOf_mapReplace]
    exact hmem
  have h3 : dictSet (m.map (fun kv => if kv.1 = k then (k, v₁) else kv)) k v₂ =
      (m.map (fun kv => if kv.1 = k then (k, v₁) else kv)).map
        (fun kv => if kv.1 = k then (k, v₂) else kv) := by
    unfold dictSet
    rw [if_pos (by simpa using List.elem_iff.mpr hmem1)]
  rw [h1, h3, h2, List.map_map]
  congr 1
  funext kv
  by_cases h : kv.1 = k <;> simp [h]

theorem aStr_inj {n m : Nat} (h : aStr n = aStr m) : n = m := by
  have h2 := congrArg (fun s => s.data.length) h
  simpa [aStr] using h2

theorem keysOf_baseMap : keysOf baseMap = specSchema := by decide

/-- C7 counterexample: the claim quantifies over all replacement values, so it
asserts the digest map is injective on each coordinate; since every digest is one
of finitely many 64-character hex strings while the candidate values are infinite,
two distinct replacement values must collide, refuting the claim as stated. -/
theorem C7_counterexample :
    ¬ (∀ m : List (String × String), keysOf m = specSchema →
        ∀ k, k ∈ specSchema → ∀ v : String, some v ≠ alookup k m →
          canonicalize (dictSet m k v) ≠ canonicalize m) := by
  intro hcl
  obtain ⟨n₁, n₂, hne, heq⟩ :=
    Finite.exists_ne_map_eq_of_infinite
      (fun n : Nat => digestCode (canonicalize (dictSet baseMap "system" (aStr n))))
  have hsys : ("system" : String) ∈ keysOf baseMap := by decide
  set m₁ := dictSet baseMap "system" (aStr n₁) with hm₁
  have hkeys : keysOf m₁ = specSchema := by
    rw [hm₁, keysOf_dictSet hsys]
    exact keysOf_baseMap
  have hlk : alookup "system" m₁ = some (aStr n₁) := by
    rw [hm₁, alookup_dictSet]
    simp
  have hvne : some (aStr n₂) ≠ alookup "system" m₁ := by
    rw [hlk]
    intro hc
    exact hne (aStr_inj (Option.some.inj hc)).symm
  have hdig : canonicalize (dictSet baseMap "system" (aStr n₁)) =
      canonicalize (dictSet baseMap "system" (aStr n₂)) := by
    have hf1 := sha256hex_format (utf8Bytes (serialize (dictSet baseMap "system" (aStr n₁))))
    have hf2 := sha256hex_format (utf8Bytes (serialize (dictSet baseMap "system" (aStr n₂))))
    exact digestCode_inj hf1.1 hf1.2 hf2.1 hf2.2 heq
  have hcontr := hcl m₁ hkeys "system" (by decide) (aStr n₂) hvne
  rw [hm₁, dictSet_overwrite hsys] at hcontr
  exact hcontr hdig.symm

set_option maxRecDepth 1000000 in
/-- C7 (amended): sensitivity holds for the sampled test values, one change per
schema key: for each of the sixteen schema keys, replacing that key's value in the
all-sentinel base map by the sampled value "changed" changes the digest. -/
theorem C7_sampled_sensitivity :
    (specSchema.all
      (fun k => canonicalize (dictSet baseMap k "changed") != canonicalize baseMap)) = true := by
  decide

/-! ## Claim C10 -/

/-- C10: `machine_id()` is total at its public interface: whatever the platform
value and whatever the underlying file read, subprocess invocation, or registry
query do (including raising), the exception-level embedding always returns `ok`
with some string — no exception ever escapes. -/
theorem C10_machine_id_total (env : Env) : ∃ s, machineIdE env = Except.ok s :=
  ⟨machine_id env, machineIdE_ok env⟩

end FP
